import Mathlib

/-!
# Verification of the `useZud` session-orchestrator hook

This file shallowly embeds the state and the event handlers of
`src/hooks/useZud.ts` (types from `src/types.ts`) and proves properties of
the embedding.

Modelling conventions:
* React `useState`/`useRef` cells become fields of a single `ZudState`
  record; each JS callback (`start`, `stop`, `onopen`, `onmessage`,
  `onerror`, `onclose`, the `ended` listener) becomes a state-transition
  function, and a run of the hook is a fold of such events over an initial
  state (the browser event loop runs each handler to completion, so
  handlers are atomic steps).
* External collaborators (the GenAI connection, image generation, grounded
  search, the YouTube API, microphone acquisition, audio decoding) are
  oracles: their outcomes are carried by the events, `Except String`
  standing for a JS value-or-thrown-error.
* Remote sessions are numbered; `pendingSessions` are connects whose
  `onopen` has not yet fired, `openSessions` are sessions whose `onopen`
  fired and which have not been closed.  Closing a still-pending connect is
  modelled as aborting it.  A failing `session.close()` (its rejection is
  swallowed by `.catch(console.error)` in the source) is modelled as still
  tearing the session down.
* `sentToolResponses`, `stoppedLog` and `scheduleLog` are observation
  logs recording the calls `session.sendToolResponse(...)`,
  `source.stop()` and `source.start(t)` (with the scheduled interval);
  they have no counterpart in the source state but only record its
  outputs.
* Message ids come from `Date.now().toString()`; the field `now` is the
  clock it reads, ticked once per handled event.
* The system-instruction string built by `start` is payload of the remote
  connect request, observable only by the external service; it is not
  tracked.
-/

/-- `speaker` field of `Message` (src/types.ts). -/
inductive Speaker where
  | user
  | model
deriving DecidableEq, Repr

/-- One YouTube search result (src/types.ts, `YouTubePart.videos` element). -/
structure YouTubeVideo where
  id : String
  title : String
  channel : String
  description : String
deriving DecidableEq, Repr

/-- One web citation (src/types.ts, `SourcePart.items` element). -/
structure WebSource where
  uri : String
  title : String
deriving DecidableEq, Repr

/-- `MessagePart` tagged union (src/types.ts). -/
inductive MessagePart where
  | text (content : String)
  | image (uri : String) (alt : Option String)
  | sources (items : List WebSource)
  | youtube (videos : List YouTubeVideo)
deriving DecidableEq, Repr

/-- `Message` (src/types.ts). -/
structure Message where
  id : String
  speaker : Speaker
  parts : List MessagePart
deriving DecidableEq, Repr

/-- The body of a `sendToolResponse` call: `{ id, name, response }`
(useZud.ts line 334).  `response = none` models the JS `undefined`
(`let functionResponse;` never assigned). -/
inductive FunctionResponse where
  /-- `{ result: <text> }` -/
  | result (text : String)
  /-- `{ error: { message: <text> } }` -/
  | failure (message : String)
deriving DecidableEq, Repr

/-- One recorded `session.sendToolResponse` call. -/
structure ToolResponse where
  id : String
  name : String
  response : Option FunctionResponse
deriving DecidableEq, Repr

/-- A scheduled playback source: its identity plus the value of
`message.serverContent?.turnComplete` captured by its `ended` listener
(useZud.ts line 369). -/
structure AudioSrc where
  id : Nat
  msgTurnComplete : Bool
deriving DecidableEq, Repr

/-- `topic` parameter of `start`. -/
inductive Topic where
  | general
  | speechTherapy
  | learnEnglish
deriving DecidableEq, Repr

/-- `language` parameter of `start`. -/
inductive Lang where
  | enUS
  | teIN
deriving DecidableEq, Repr

/-- The state of the hook: every `useState` and `useRef` cell of `useZud`,
the session bookkeeping of the modelled remote end, and the observation
logs. -/
structure ZudState where
  /-- `status` state (line 105). -/
  status : String
  /-- `error` state (line 106). -/
  error : Option String
  /-- `messages` state (line 107). -/
  messages : List Message
  /-- `isLiveConnected` state (line 108). -/
  isLiveConnected : Bool
  /-- `isMicMuted` state (line 109). -/
  isMicMuted : Bool
  /-- `aiRef` (line 111): whether a `GoogleGenAI` client exists. -/
  aiRef : Bool
  /-- `sessionPromiseRef` (line 112): the session the ref points at. -/
  sessionPromise : Option Nat
  /-- `inputAudioContextRef` (line 114): whether an open context is held. -/
  inputAudioContext : Bool
  /-- `outputAudioContextRef` (line 115). -/
  outputAudioContext : Bool
  /-- `microphoneStreamRef` (line 116). -/
  microphoneStream : Bool
  /-- `scriptProcessorRef` (line 117). -/
  scriptProcessor : Bool
  /-- `nextStartTimeRef` (line 118). -/
  nextStartTime : ℚ
  /-- `audioSourcesRef` (line 119), insertion order kept. -/
  audioSources : List AudioSrc
  /-- Fresh id for the next created buffer source. -/
  nextSourceId : Nat
  /-- `currentInputTranscriptionRef` (line 124). -/
  currentInputTranscription : String
  /-- `currentOutputTranscriptionRef` (line 125). -/
  currentOutputTranscription : String
  /-- The `imagePart` argument captured by the current session's
  `onmessage` closure (line 343). -/
  sessionImagePart : Option MessagePart
  /-- The clock read by `Date.now()`. -/
  now : Nat
  /-- Fresh id for the next `live.connect` call. -/
  nextSessionId : Nat
  /-- Connects issued whose `onopen` has not fired yet. -/
  pendingSessions : List Nat
  /-- Remote sessions that opened and were not closed. -/
  openSessions : List Nat
  /-- Log of `session.sendToolResponse` calls (line 333). -/
  sentToolResponses : List ToolResponse
  /-- Log of `source.stop()` calls (line 132), by source id. -/
  stoppedLog : List Nat
  /-- Log of scheduled playback intervals: `(start, start + duration)`
  per `source.start(t)` call (lines 373-374). -/
  scheduleLog : List (ℚ × ℚ)
deriving DecidableEq, Repr

/-- The state at mount: `useState('Ready')`, `useState(null)`,
`useState([])`, `useState(false)` twice, all refs `null`,
`nextStartTimeRef` 0, empty source set and empty logs. -/
def initialState : ZudState where
  status := "Ready"
  error := none
  messages := []
  isLiveConnected := false
  isMicMuted := false
  aiRef := false
  sessionPromise := none
  inputAudioContext := false
  outputAudioContext := false
  microphoneStream := false
  scriptProcessor := false
  nextStartTime := 0
  audioSources := []
  nextSourceId := 0
  currentInputTranscription := ""
  currentOutputTranscription := ""
  sessionImagePart := none
  now := 0
  nextSessionId := 0
  pendingSessions := []
  openSessions := []
  sentToolResponses := []
  stoppedLog := []
  scheduleLog := []

/-- `addMessage` (lines 167-169): `setMessages(prev => [...prev, message])`. -/
def addMessage (s : ZudState) (m : Message) : ZudState :=
  { s with messages := s.messages ++ [m] }

/-- `stopAudioPlayback` (lines 129-137): if an output context exists, stop
every tracked source, empty the set and reset `nextStartTimeRef` to 0;
otherwise do nothing. -/
def stopAudioPlayback (s : ZudState) : ZudState :=
  if s.outputAudioContext then
    { s with stoppedLog := s.stoppedLog ++ s.audioSources.map (fun a => a.id)
             audioSources := []
             nextStartTime := 0 }
  else s

/-- Outcomes of the three fallible close operations inside `stop`; each is
wrapped by the source in a `.catch(console.error)`. -/
structure StopEnv where
  sessionCloseFails : Bool
  inputCloseFails : Bool
  outputCloseFails : Bool
deriving DecidableEq, Repr

/-- `session.close()` as seen through its promise (line 140). -/
def closeSessionOp (env : StopEnv) : Except String Unit :=
  if env.sessionCloseFails then .error "session close failed" else .ok ()

/-- `inputCtx.close()` (line 151). -/
def closeInputCtxOp (env : StopEnv) : Except String Unit :=
  if env.inputCloseFails then .error "input context close failed" else .ok ()

/-- `outputCtx.close()` (line 158). -/
def closeOutputCtxOp (env : StopEnv) : Except String Unit :=
  if env.outputCloseFails then .error "output context close failed" else .ok ()

/-- `stop` (lines 139-165).  Each close outcome is produced and then
discarded, exactly as `.catch(console.error)` swallows the rejection; a
failing close still tears the session down (see the header).  The final
state: all refs null, playback stopped, `isLiveConnected = false`,
`status = 'Ready'`, `error = null`.  `messages` is NOT cleared. -/
def stop (s : ZudState) (env : StopEnv) : ZudState :=
  let _ := closeSessionOp env
  let _ := closeInputCtxOp env
  let _ := closeOutputCtxOp env
  let s :=
    match s.sessionPromise with
    | some sid =>
        { s with openSessions := s.openSessions.erase sid
                 pendingSessions := s.pendingSessions.erase sid
                 sessionPromise := none }
    | none => s
  let s := { s with microphoneStream := false, scriptProcessor := false,
                    inputAudioContext := false }
  let s := stopAudioPlayback s
  { s with outputAudioContext := false
           isLiveConnected := false
           status := "Ready"
           error := none }

/-- The synchronous body of `start` (lines 171-399).  Guarded by
`isLiveConnected` (line 177).  The body runs without awaiting: it resets
status/error/messages/buffers, checks `process.env.API_KEY` (throwing into
the catch of line 391 when absent), creates the client and the output
context, appends the optional leading image message, and issues
`live.connect`, leaving the new connect pending.  `apiKeyPresent` is the
environment's `process.env.API_KEY` oracle. -/
def startStep (s : ZudState) (_history : List Message) (_topic : Topic)
    (_language : Lang) (imagePart : Option MessagePart)
    (apiKeyPresent : Bool) : ZudState :=
  if s.isLiveConnected then s
  else
    let s := { s with status := "Connecting...", error := none, messages := []
                      currentInputTranscription := ""
                      currentOutputTranscription := "" }
    if apiKeyPresent = false then
      { s with error := some "Failed to start session: API_KEY environment variable not set."
               status := "Error"
               isLiveConnected := false
               now := s.now + 1 }
    else
      let s := { s with aiRef := true, outputAudioContext := true,
                        sessionImagePart := imagePart }
      let s :=
        match imagePart with
        | some p => addMessage s { id := toString s.now, speaker := .user, parts := [p] }
        | none => s
      { s with sessionPromise := some s.nextSessionId
               pendingSessions := s.pendingSessions ++ [s.nextSessionId]
               nextSessionId := s.nextSessionId + 1
               now := s.now + 1 }

/-- Outcome of `navigator.mediaDevices.getUserMedia` in `onopen`
(line 227): success, or a thrown error with its normalized message. -/
inductive MicOutcome where
  | ok
  | fail (message : String)
deriving DecidableEq, Repr

/-- The `onopen` callback (lines 222-253) of session `sid`, which fires
when that connect resolves.  Sets `isLiveConnected` and
`status = 'Listening...'`, then acquires the microphone and builds the
capture graph; on failure, records `Microphone error: ...`, sets
`status = 'Error'` and calls `stop()` (whose close outcomes are carried by
`env`). -/
def openStep (s : ZudState) (sid : Nat) (mic : MicOutcome) (env : StopEnv) :
    ZudState :=
  if sid ∈ s.pendingSessions then
    let s := { s with pendingSessions := s.pendingSessions.erase sid
                      openSessions := s.openSessions ++ [sid]
                      isLiveConnected := true
                      status := "Listening..." }
    match mic with
    | .ok =>
        { s with microphoneStream := true, inputAudioContext := true,
                 scriptProcessor := true, now := s.now + 1 }
    | .fail m =>
        let s := { s with error := some ("Microphone error: " ++ m)
                          status := "Error" }
        let s := stop s env
        { s with now := s.now + 1 }
  else s

deriving instance DecidableEq for Except

/-- One entry of `message.toolCall.functionCalls` (line 264) together with
the oracle outcomes of the external capability the handler would invoke
for it: `imageOutcome` is `ai.models.generateImages` (line 269),
`searchOutcome` is `ai.models.generateContent` (line 281) giving the raw
`response.text` and the raw `groundingChunks` (each chunk's `web` field,
absent fields as `none`), `youtubeOutcome` is `fetchYouTubeVideos`
(line 309).  `.error m` is a thrown error already normalized to its
message (lines 324-325). -/
structure FunctionCallEvent where
  id : String
  name : String
  /-- `fc.args.prompt` (line 268). -/
  prompt : String
  /-- `fc.args.query` (lines 280, 308). -/
  query : String
  imageOutcome : Except String String
  searchOutcome : Except String (Option String × Option (List (Option WebSource)))
  youtubeOutcome : Except String (List YouTubeVideo)
deriving DecidableEq, Repr

/-- JavaScript `String.prototype.trim`: strip leading and trailing
whitespace (modelled over the character list, structurally recursive so a
witness can evaluate it). -/
def jsTrim (s : String) : String :=
  String.mk (((s.data.dropWhile Char.isWhitespace).reverse.dropWhile
    Char.isWhitespace).reverse)

/-- JS truthiness of the (possibly absent) trimmed answer text: `text` is
falsy when `undefined` or `""` (line 292 `if (text || ...)`). -/
def textTruthy : Option String → Bool
  | none => false
  | some t => t ≠ ""

/-- Lines 288-290: `groundingChunks?.map(chunk => chunk.web).filter(web =>
!!(web?.uri && web.title)) || []` — keep a chunk's `web` when present with
non-empty `uri` and non-empty `title`. -/
def extractSources (chunks : Option (List (Option WebSource))) : List WebSource :=
  match chunks with
  | none => []
  | some l => l.filterMap fun ow =>
      match ow with
      | some w => if w.uri ≠ "" ∧ w.title ≠ "" then some w else none
      | none => none

/-- Fallback of the `googleSearch` empty branch (line 303). -/
def gsFallbackText : String := "I looked for that, but couldn't find any specific information."

/-- The parts pushed in the `googleSearch` success branch (lines 293-299):
the `text` part if the text is truthy, then the `sources` part if any
citations survived the filter. -/
def googleMessageParts (text : Option String) (sources : List WebSource) :
    List MessagePart :=
  (if textTruthy text = true then [MessagePart.text (text.getD "")] else [])
    ++ (if sources ≠ [] then [MessagePart.sources sources] else [])

/-- The function result of the `googleSearch` success branch (line 301):
`text || "I found some information for you."`. -/
def googleResultText (text : Option String) : String :=
  if textTruthy text = true then text.getD ""
  else "I found some information for you."

/-- Fallback of the `youtubeSearch` empty branch (line 318). -/
def ytFallbackText : String := "Sorry, no videos could be found that allow playback here."

/-- The `catch` of the per-call `try` (lines 323-330): surface the error,
append an `An error occurred: ...` model message, and answer with a
structured failure. -/
def toolCatch (s : ZudState) (m : String) : ZudState × Option FunctionResponse :=
  (addMessage { s with error := some ("Error with tool: " ++ m) }
     { id := toString s.now, speaker := .model,
       parts := [.text ("An error occurred: " ++ m)] },
   some (.failure ("Tool execution failed: " ++ m)))

/-- The body of the `for (const fc of message.toolCall.functionCalls)` loop
(lines 264-337) for one call: resolve the call by name in the source's
branch order, then — whatever happened, matched branch or none — send
`{ id, name, response }` on the session if the session ref is non-null
(lines 332-336). -/
def resolveFC (s : ZudState) (fc : FunctionCallEvent) :
    ZudState × Option FunctionResponse :=
    if fc.name = "generateImage" ∧ s.aiRef = true then
      match fc.imageOutcome with
      | .ok bytes =>
          let imageUrl := "data:image/jpeg;base64," ++ bytes
          (addMessage s { id := toString s.now, speaker := .model,
                          parts := [.image imageUrl (some fc.prompt)] },
           some (.result "OK, I've generated that image for you."))
      | .error m => toolCatch s m
    else if fc.name = "googleSearch" ∧ s.aiRef = true then
      match fc.searchOutcome with
      | .ok (respText, chunks) =>
          let text := respText.map jsTrim
          let sources := extractSources chunks
          if textTruthy text = true ∨ sources ≠ [] then
            (addMessage s { id := toString s.now, speaker := .model,
                            parts := googleMessageParts text sources },
             some (.result (googleResultText text)))
          else
            (addMessage s { id := toString s.now, speaker := .model,
                            parts := [.text gsFallbackText] },
             some (.result gsFallbackText))
      | .error m => toolCatch s m
    else if fc.name = "youtubeSearch" then
      match fc.youtubeOutcome with
      | .ok videos =>
          if videos ≠ [] then
            (addMessage s { id := toString s.now, speaker := .model,
                            parts := [.text "Found some videos for you:", .youtube videos] },
             some (.result ("OK, I found " ++ toString videos.length ++ " videos.")))
          else
            (addMessage s { id := toString s.now, speaker := .model,
                            parts := [.text ytFallbackText] },
             some (.result ytFallbackText))
      | .error m => toolCatch s m
    else (s, none)

/-- Lines 332-336: `sessionPromiseRef.current?.then(session =>
session.sendToolResponse({ functionResponses: { id, name, response } }))` —
the response frame goes out only when the session ref is non-null. -/
def sendIfLive (s : ZudState) (fc : FunctionCallEvent)
    (resp : Option FunctionResponse) : ZudState :=
  match s.sessionPromise with
  | some _ =>
      { s with sentToolResponses := s.sentToolResponses ++
          [{ id := fc.id, name := fc.name, response := resp }] }
  | none => s

/-- The body of the `for (const fc of message.toolCall.functionCalls)` loop
for one call: resolve, then send. -/
def processFC (s : ZudState) (fc : FunctionCallEvent) : ZudState :=
  let step := resolveFC s fc
  sendIfLive step.1 fc step.2

/-- One decoded inbound audio fragment: the playback clock read at arrival
(`audioContext.currentTime`, line 361) and the decoded buffer's duration
(line 374), both environment oracles. -/
structure AudioFragment where
  clock : ℚ
  duration : ℚ
deriving DecidableEq, Repr

instance : Inhabited AudioFragment := ⟨⟨0, 0⟩⟩

/-- One `LiveServerMessage` as consumed by `onmessage` (lines 254-379):
the fields the handler reads, with external outcomes attached to each
function call. -/
structure ServerMsg where
  outputTranscription : Option String
  inputTranscription : Option String
  toolCall : Option (List FunctionCallEvent)
  turnComplete : Bool
  audioData : Option AudioFragment
  interrupted : Bool
deriving Repr

/-- Lines 255-259: `if (outputTranscription) ... else if (inputTranscription) ...`. -/
def transcriptionStep (s : ZudState) (msg : ServerMsg) : ZudState :=
  match msg.outputTranscription with
  | some t => { s with currentOutputTranscription := s.currentOutputTranscription ++ t }
  | none =>
      match msg.inputTranscription with
      | some t => { s with currentInputTranscription := s.currentInputTranscription ++ t }
      | none => s

/-- The fixed handoff notice prepended to every tool-call batch
(line 262). -/
def handoffMessage (now : Nat) : Message :=
  { id := "handoff-" ++ toString now, speaker := .model,
    parts := [.text "Let me check with my partner AI for better assistance..."] }

/-- Lines 261-338: `if (message.toolCall)` — append the handoff notice,
set `status = 'Thinking...'`, then process the batch in order. -/
def toolCallStep (s : ZudState) (msg : ServerMsg) : ZudState :=
  match msg.toolCall with
  | some batch =>
      let s := addMessage s (handoffMessage s.now)
      let s := { s with status := "Thinking..." }
      batch.foldl processFC s
  | none => s

/-- Lines 340-355: on `turnComplete`, flush the trimmed transcription
buffers into a user message (with the session's leading image part
prepended when one was supplied to `start`) and a model message, clear
both buffers, `status = 'Listening...'`. -/
def turnCompleteStep (s : ZudState) : ZudState :=
  let fullInput := jsTrim s.currentInputTranscription
  let s :=
    if fullInput ≠ "" then
      addMessage s { id := toString s.now, speaker := .user,
                     parts :=
                       match s.sessionImagePart with
                       | some ip => [ip, .text fullInput]
                       | none => [.text fullInput] }
    else s
  let fullOutput := jsTrim s.currentOutputTranscription
  let s :=
    if fullOutput ≠ "" then
      addMessage s { id := toString s.now, speaker := .model,
                     parts := [.text fullOutput] }
    else s
  { s with currentInputTranscription := ""
           currentOutputTranscription := ""
           status := "Listening..." }

/-- Lines 357-376 (given inline audio data and a live output context):
`status = 'Speaking...'`, clamp `nextStartTime` up to the playback
clock, schedule the decoded buffer on that boundary and advance
`nextStartTime` by its duration, tracking the new source (whose `ended`
listener captures this message's `turnComplete`). -/
def playAudioFragment (s : ZudState) (f : AudioFragment) (msgTurnComplete : Bool) :
    ZudState :=
  let st := max s.nextStartTime f.clock
  { s with status := "Speaking..."
           nextStartTime := st + f.duration
           audioSources := s.audioSources ++ [{ id := s.nextSourceId, msgTurnComplete := msgTurnComplete }]
           nextSourceId := s.nextSourceId + 1
           scheduleLog := s.scheduleLog ++ [(st, st + f.duration)] }

/-- Blocks 1-4 of the `onmessage` callback in source order: transcription
accumulation (lines 255-259), tool-call batch (261-338), turn completion
(340-355), inline audio (357-376). -/
def preInterruptState (s : ZudState) (msg : ServerMsg) : ZudState :=
  let s := transcriptionStep s msg
  let s := toolCallStep s msg
  let s := if msg.turnComplete then turnCompleteStep s else s
  match msg.audioData with
  | some f => if s.outputAudioContext then playAudioFragment s f msg.turnComplete else s
  | none => s

/-- The `onmessage` callback (lines 254-379): blocks 1-4, then the
interruption check `if (message.serverContent?.interrupted)
stopAudioPlayback()` (line 378). -/
def onMessageStep (s : ZudState) (msg : ServerMsg) : ZudState :=
  let s := preInterruptState s msg
  let s := if msg.interrupted then stopAudioPlayback s else s
  { s with now := s.now + 1 }

/-- The `ended` listener of a scheduled source (lines 367-372): drop the
source from the active set; if the set became empty and the source's
message was not a turn completion, `status = 'Listening...'`. -/
def sourceEndedStep (s : ZudState) (sid : Nat) : ZudState :=
  match s.audioSources.find? (fun a => a.id = sid) with
  | some a =>
      let remaining := s.audioSources.filter (fun b => b.id ≠ sid)
      let s := { s with audioSources := remaining }
      if remaining = [] ∧ a.msgTurnComplete = false then
        { s with status := "Listening..." }
      else s
  | none => s

/-- The asynchronous entry points of the hook, each an atomic event-loop
turn.  `startCall` is the synchronous body of `start` (its connect, when
issued, resolves later via `openResolved`).  `errorEvt`/`closeEvt` are the
session's `onerror`/`onclose` callbacks (lines 380-386). -/
inductive Event where
  | startCall (history : List Message) (topic : Topic) (language : Lang)
      (imagePart : Option MessagePart) (apiKeyPresent : Bool)
  | openResolved (sid : Nat) (mic : MicOutcome) (env : StopEnv)
  | onMessage (msg : ServerMsg)
  | stopCall (env : StopEnv)
  | errorEvt (message : String) (env : StopEnv)
  | closeEvt (env : StopEnv)
  | sourceEnded (sid : Nat)
  | clearMessages
  | toggleMicMute

/-- Dispatch one event to its handler. -/
def stepFull (s : ZudState) : Event → ZudState
  | .startCall h t l ip key => startStep s h t l ip key
  | .openResolved sid mic env => openStep s sid mic env
  | .onMessage msg => onMessageStep s msg
  | .stopCall env => stop s env
  | .errorEvt m env =>
      stop { s with error := some ("Session error: " ++ m), status := "Error" } env
  | .closeEvt env => stop s env
  | .sourceEnded sid => sourceEndedStep s sid
  | .clearMessages => { s with messages := [] }
  | .toggleMicMute => { s with isMicMuted := !s.isMicMuted }

/-- A run of the hook: fold a sequence of event-loop turns over a state. -/
def runFull (s : ZudState) (tr : List Event) : ZudState :=
  tr.foldl stepFull s

/-- The events of a serialized execution, in which every connect issued by
`start` resolves (its `onopen` runs, with outcome `mic`) before any other
event-loop turn: `startOpen` fuses the body of `start` with the `onopen`
of the connect it issued. -/
inductive SerialEvent where
  | startOpen (history : List Message) (topic : Topic) (language : Lang)
      (imagePart : Option MessagePart) (apiKeyPresent : Bool)
      (mic : MicOutcome) (env : StopEnv)
  | onMessage (msg : ServerMsg)
  | stopCall (env : StopEnv)
  | errorEvt (message : String) (env : StopEnv)
  | closeEvt (env : StopEnv)
  | sourceEnded (sid : Nat)
  | clearMessages
  | toggleMicMute

/-- `start` followed at once by the `onopen` of the connect it issued (if
it issued one). -/
def startOpenStep (s : ZudState) (h : List Message) (t : Topic) (l : Lang)
    (ip : Option MessagePart) (key : Bool) (mic : MicOutcome) (env : StopEnv) :
    ZudState :=
  let sid := s.nextSessionId
  let s' := startStep s h t l ip key
  if s'.sessionPromise = some sid ∧ s'.nextSessionId = sid + 1 then
    openStep s' sid mic env
  else s'

/-- Dispatch one serialized event. -/
def stepSerial (s : ZudState) : SerialEvent → ZudState
  | .startOpen h t l ip key mic env => startOpenStep s h t l ip key mic env
  | .onMessage msg => onMessageStep s msg
  | .stopCall env => stop s env
  | .errorEvt m env =>
      stop { s with error := some ("Session error: " ++ m), status := "Error" } env
  | .closeEvt env => stop s env
  | .sourceEnded sid => sourceEndedStep s sid
  | .clearMessages => { s with messages := [] }
  | .toggleMicMute => { s with isMicMuted := !s.isMicMuted }

/-- A serialized run of the hook. -/
def runSerial (s : ZudState) (tr : List SerialEvent) : ZudState :=
  tr.foldl stepSerial s

/-- A message event carrying nothing but one inline audio fragment. -/
def audioOnlyMsg (f : AudioFragment) : ServerMsg :=
  { outputTranscription := none, inputTranscription := none, toolCall := none,
    turnComplete := false, audioData := some f, interrupted := false }

/-- A sequence of `onmessage` turns each delivering one audio fragment and
no interruption. -/
def runAudioMsgs (s : ZudState) (frags : List AudioFragment) : ZudState :=
  frags.foldl (fun s f => onMessageStep s (audioOnlyMsg f)) s

/-- The idle configuration: no session handle, no capture or playback
resources, not connected, `status = 'Ready'`, no error — the state `stop`
leaves behind and the state the hook mounts in. -/
def IsIdle (s : ZudState) : Prop :=
  s.sessionPromise = none ∧ s.microphoneStream = false ∧
  s.scriptProcessor = false ∧ s.inputAudioContext = false ∧
  s.outputAudioContext = false ∧ s.audioSources = [] ∧
  s.isLiveConnected = false ∧ s.status = "Ready" ∧ s.error = none

instance (s : ZudState) : Decidable (IsIdle s) := by
  unfold IsIdle
  infer_instance

section Lemmas

/-- `transcriptionStep` only touches the transcription buffers. -/
lemma transcriptionStep_fields (s : ZudState) (msg : ServerMsg) :
    (transcriptionStep s msg).outputAudioContext = s.outputAudioContext ∧
    (transcriptionStep s msg).stoppedLog = s.stoppedLog ∧
    (transcriptionStep s msg).audioSources = s.audioSources ∧
    (transcriptionStep s msg).messages = s.messages ∧
    (transcriptionStep s msg).isLiveConnected = s.isLiveConnected ∧
    (transcriptionStep s msg).sentToolResponses = s.sentToolResponses := by
  unfold transcriptionStep
  repeat' split
  all_goals and_intros
  all_goals rfl

/-- `resolveFC` only touches `messages` and `error`. -/
lemma resolveFC_fields (s : ZudState) (fc : FunctionCallEvent) :
    (resolveFC s fc).1.outputAudioContext = s.outputAudioContext ∧
    (resolveFC s fc).1.stoppedLog = s.stoppedLog ∧
    (resolveFC s fc).1.audioSources = s.audioSources ∧
    (resolveFC s fc).1.isLiveConnected = s.isLiveConnected ∧
    (resolveFC s fc).1.nextStartTime = s.nextStartTime ∧
    (resolveFC s fc).1.sentToolResponses = s.sentToolResponses ∧
    (resolveFC s fc).1.sessionPromise = s.sessionPromise ∧
    (resolveFC s fc).1.outputAudioContext = s.outputAudioContext := by
  unfold resolveFC toolCatch addMessage
  repeat' split
  all_goals dsimp only
  all_goals repeat' split
  all_goals and_intros
  all_goals rfl

/-- `sendIfLive` only touches `sentToolResponses`. -/
lemma sendIfLive_fields (s : ZudState) (fc : FunctionCallEvent)
    (resp : Option FunctionResponse) :
    (sendIfLive s fc resp).outputAudioContext = s.outputAudioContext ∧
    (sendIfLive s fc resp).stoppedLog = s.stoppedLog ∧
    (sendIfLive s fc resp).audioSources = s.audioSources ∧
    (sendIfLive s fc resp).isLiveConnected = s.isLiveConnected ∧
    (sendIfLive s fc resp).nextStartTime = s.nextStartTime ∧
    (sendIfLive s fc resp).messages = s.messages := by
  unfold sendIfLive
  repeat' split
  all_goals and_intros
  all_goals rfl

/-- `processFC` only touches `messages`, `error` and `sentToolResponses`. -/
lemma processFC_fields (s : ZudState) (fc : FunctionCallEvent) :
    (processFC s fc).outputAudioContext = s.outputAudioContext ∧
    (processFC s fc).stoppedLog = s.stoppedLog ∧
    (processFC s fc).audioSources = s.audioSources ∧
    (processFC s fc).isLiveConnected = s.isLiveConnected ∧
    (processFC s fc).nextStartTime = s.nextStartTime := by
  unfold processFC
  have hr := resolveFC_fields s fc
  have hs := sendIfLive_fields (resolveFC s fc).1 fc (resolveFC s fc).2
  exact ⟨hs.1.trans hr.1, hs.2.1.trans hr.2.1, hs.2.2.1.trans hr.2.2.1,
         hs.2.2.2.1.trans hr.2.2.2.1, hs.2.2.2.2.1.trans hr.2.2.2.2.1⟩

end Lemmas

/-- Non-emptiness of every appended message's `parts` — the C4 invariant. -/
def PartsOK (s : ZudState) : Prop :=
  ∀ m ∈ s.messages, m.parts ≠ []

/-- The parts list built in the `googleSearch` success branch is non-empty
whenever its guard held. -/
lemma googleParts_ne_nil (text : Option String) (sources : List WebSource)
    (h : textTruthy text = true ∨ sources ≠ []) :
    googleMessageParts text sources ≠ [] := by
  unfold googleMessageParts
  rcases h with h | h <;> simp [h]

/-- `resolveFC` appends messages (never edits or removes). -/
lemma resolveFC_messages (s : ZudState) (fc : FunctionCallEvent) :
    ∃ t, (resolveFC s fc).1.messages = s.messages ++ t := by
  unfold resolveFC toolCatch addMessage
  repeat' split
  all_goals dsimp only
  all_goals repeat' split
  all_goals first
    | exact ⟨_, rfl⟩
    | exact ⟨[], by simp⟩

/-- `resolveFC` preserves the parts invariant. -/
lemma resolveFC_partsOK (s : ZudState) (fc : FunctionCallEvent)
    (hOK : PartsOK s) : PartsOK (resolveFC s fc).1 := by
  unfold resolveFC toolCatch addMessage
  repeat' split
  all_goals dsimp only
  all_goals repeat' split
  all_goals first
    | exact hOK
    | (intro x hx
       rcases List.mem_append.mp hx with h | h
       · exact hOK x h
       · simp only [List.mem_singleton] at h
         subst h
         first
           | (apply googleParts_ne_nil
              assumption)
           | simp_all)

/-- `processFC` appends messages. -/
lemma processFC_messages (s : ZudState) (fc : FunctionCallEvent) :
    ∃ t, (processFC s fc).messages = s.messages ++ t := by
  obtain ⟨t, ht⟩ := resolveFC_messages s fc
  exact ⟨t, ((sendIfLive_fields (resolveFC s fc).1 fc (resolveFC s fc).2).2.2.2.2.2).trans ht⟩

/-- `processFC` preserves the parts invariant. -/
lemma processFC_partsOK (s : ZudState) (fc : FunctionCallEvent)
    (hOK : PartsOK s) : PartsOK (processFC s fc) := by
  intro x hx
  rw [show (processFC s fc).messages = (resolveFC s fc).1.messages from
        (sendIfLive_fields (resolveFC s fc).1 fc (resolveFC s fc).2).2.2.2.2.2] at hx
  exact resolveFC_partsOK s fc hOK x hx

/-- Folding a batch through `processFC` appends messages. -/
lemma foldl_processFC_messages (batch : List FunctionCallEvent) (s : ZudState) :
    ∃ t, (batch.foldl processFC s).messages = s.messages ++ t := by
  induction batch generalizing s with
  | nil => exact ⟨[], by simp [List.foldl]⟩
  | cons fc rest ih =>
      obtain ⟨t1, h1⟩ := processFC_messages s fc
      obtain ⟨t2, h2⟩ := ih (processFC s fc)
      exact ⟨t1 ++ t2, by simp [List.foldl, h2, h1, List.append_assoc]⟩

/-- Folding a batch through `processFC` preserves the parts invariant. -/
lemma foldl_processFC_partsOK (batch : List FunctionCallEvent) (s : ZudState)
    (hOK : PartsOK s) : PartsOK (batch.foldl processFC s) := by
  induction batch generalizing s with
  | nil => exact hOK
  | cons fc rest ih => exact ih (processFC s fc) (processFC_partsOK s fc hOK)

/-- `stopAudioPlayback` does not touch the message list (nor status/error). -/
lemma stopAudioPlayback_fields (s : ZudState) :
    (stopAudioPlayback s).messages = s.messages ∧
    (stopAudioPlayback s).status = s.status ∧
    (stopAudioPlayback s).error = s.error ∧
    (stopAudioPlayback s).isLiveConnected = s.isLiveConnected ∧
    (stopAudioPlayback s).sentToolResponses = s.sentToolResponses := by
  unfold stopAudioPlayback
  repeat' split
  all_goals and_intros
  all_goals rfl

/-- `stop` does not touch the message list. -/
lemma stop_messages (s : ZudState) (env : StopEnv) :
    (stop s env).messages = s.messages := by
  unfold stop stopAudioPlayback
  repeat' split
  all_goals dsimp only
  all_goals repeat' split
  all_goals rfl

/-- `openStep` does not touch the message list. -/
lemma openStep_messages (s : ZudState) (sid : Nat) (mic : MicOutcome)
    (env : StopEnv) : (openStep s sid mic env).messages = s.messages := by
  unfold openStep
  split
  · cases mic with
    | ok => rfl
    | fail m =>
        dsimp only
        rw [stop_messages]
  · rfl

/-- `toolCallStep` prepends the handoff notice and then only appends. -/
lemma toolCallStep_messages (s : ZudState) (msg : ServerMsg) :
    (msg.toolCall = none ∧ (toolCallStep s msg).messages = s.messages) ∨
    (∃ batch t, msg.toolCall = some batch ∧
      (toolCallStep s msg).messages = s.messages ++ [handoffMessage s.now] ++ t) := by
  unfold toolCallStep
  cases h : msg.toolCall with
  | none => exact .inl ⟨rfl, rfl⟩
  | some batch =>
      refine .inr ⟨batch, ?_⟩
      obtain ⟨t, ht⟩ := foldl_processFC_messages batch
        { addMessage s (handoffMessage s.now) with status := "Thinking..." }
      exact ⟨t, rfl, by simpa [addMessage] using ht⟩

/-- `turnCompleteStep` only appends messages. -/
lemma turnCompleteStep_messages (s : ZudState) :
    ∃ t, (turnCompleteStep s).messages = s.messages ++ t := by
  unfold turnCompleteStep addMessage
  repeat' split
  all_goals dsimp only
  all_goals repeat' split
  all_goals first
    | exact ⟨_, rfl⟩
    | exact ⟨_, List.append_assoc _ _ _⟩
    | exact ⟨[], (List.append_nil _).symm⟩

/-- `transcriptionStep` preserves the parts invariant. -/
lemma transcriptionStep_partsOK (s : ZudState) (msg : ServerMsg)
    (hOK : PartsOK s) : PartsOK (transcriptionStep s msg) := by
  intro x hx
  rw [(transcriptionStep_fields s msg).2.2.2.1] at hx
  exact hOK x hx

/-- `toolCallStep` preserves the parts invariant. -/
lemma toolCallStep_partsOK (s : ZudState) (msg : ServerMsg)
    (hOK : PartsOK s) : PartsOK (toolCallStep s msg) := by
  unfold toolCallStep
  cases h : msg.toolCall with
  | none => exact hOK
  | some batch =>
      apply foldl_processFC_partsOK
      intro x hx
      simp only [addMessage] at hx
      rcases List.mem_append.mp hx with h' | h'
      · exact hOK x h'
      · simp only [List.mem_singleton] at h'
        subst h'
        simp [handoffMessage]

/-- `turnCompleteStep` preserves the parts invariant. -/
lemma turnCompleteStep_partsOK (s : ZudState) (hOK : PartsOK s) :
    PartsOK (turnCompleteStep s) := by
  unfold turnCompleteStep addMessage
  repeat' split
  all_goals dsimp only
  all_goals repeat' split
  all_goals (intro x hx)
  all_goals first
    | exact hOK x hx
    | (rcases List.mem_append.mp hx with h | h
       · first
         | exact hOK x h
         | (rcases List.mem_append.mp h with h2 | h2
            · exact hOK x h2
            · simp only [List.mem_singleton] at h2
              subst h2
              simp_all)
       · simp only [List.mem_singleton] at h
         subst h
         simp_all)

/-- `transcriptionStep` does not advance the clock. -/
lemma transcriptionStep_now (s : ZudState) (msg : ServerMsg) :
    (transcriptionStep s msg).now = s.now := by
  unfold transcriptionStep
  repeat' split
  all_goals rfl

/-- `sourceEndedStep` does not touch the message list. -/
lemma sourceEndedStep_messages (s : ZudState) (sid : Nat) :
    (sourceEndedStep s sid).messages = s.messages := by
  unfold sourceEndedStep
  repeat' split
  all_goals try dsimp only
  all_goals repeat' split
  all_goals rfl

/-- `startStep` preserves the parts invariant (it clears the list or seeds
it with the single-part leading-image message). -/
lemma startStep_partsOK (s : ZudState) (h : List Message) (t : Topic)
    (l : Lang) (ip : Option MessagePart) (key : Bool) (hOK : PartsOK s) :
    PartsOK (startStep s h t l ip key) := by
  unfold startStep addMessage
  repeat' split
  all_goals first
    | exact hOK
    | (intro x hx; simp_all)

/-- `preInterruptState` preserves the parts invariant. -/
lemma preInterruptState_partsOK (s : ZudState) (msg : ServerMsg)
    (hOK : PartsOK s) : PartsOK (preInterruptState s msg) := by
  unfold preInterruptState
  try dsimp only
  have h2 := toolCallStep_partsOK (transcriptionStep s msg) msg
    (transcriptionStep_partsOK s msg hOK)
  set s2 := toolCallStep (transcriptionStep s msg) msg with hs2
  have h3 : PartsOK (if msg.turnComplete then turnCompleteStep s2 else s2) := by
    split
    · exact turnCompleteStep_partsOK s2 h2
    · exact h2
  set s3 := if msg.turnComplete then turnCompleteStep s2 else s2 with hs3
  cases msg.audioData with
  | none => exact h3
  | some f =>
      try dsimp only
      split
      · intro x hx
        exact h3 x hx
      · exact h3

/-- `onMessageStep` preserves the parts invariant. -/
lemma onMessageStep_partsOK (s : ZudState) (msg : ServerMsg)
    (hOK : PartsOK s) : PartsOK (onMessageStep s msg) := by
  unfold onMessageStep
  try dsimp only
  have h4 := preInterruptState_partsOK s msg hOK
  set s4 := preInterruptState s msg with hs4
  have h5 : PartsOK (if msg.interrupted then stopAudioPlayback s4 else s4) := by
    split
    · intro x hx
      rw [(stopAudioPlayback_fields s4).1] at hx
      exact h4 x hx
    · exact h4
  intro x hx
  exact h5 x hx

/-- Every single event-loop turn preserves the parts invariant. -/
lemma stepFull_partsOK (s : ZudState) (e : Event) (hOK : PartsOK s) :
    PartsOK (stepFull s e) := by
  cases e <;> dsimp only [stepFull]
  case startCall h t l ip key => exact startStep_partsOK s h t l ip key hOK
  case openResolved sid mic env =>
      intro x hx
      rw [openStep_messages] at hx
      exact hOK x hx
  case onMessage msg => exact onMessageStep_partsOK s msg hOK
  case stopCall env =>
      intro x hx
      rw [stop_messages] at hx
      exact hOK x hx
  case errorEvt m env =>
      intro x hx
      rw [stop_messages] at hx
      exact hOK x hx
  case closeEvt env =>
      intro x hx
      rw [stop_messages] at hx
      exact hOK x hx
  case sourceEnded sid =>
      intro x hx
      rw [sourceEndedStep_messages] at hx
      exact hOK x hx
  case clearMessages =>
      intro x hx
      exact absurd hx (List.not_mem_nil x)
  case toggleMicMute => exact hOK

/-- Any run from a state satisfying the parts invariant satisfies it. -/
lemma runFull_partsOK (tr : List Event) (s : ZudState) (hOK : PartsOK s) :
    PartsOK (runFull s tr) := by
  induction tr generalizing s with
  | nil => exact hOK
  | cons e rest ih => exact ih (stepFull s e) (stepFull_partsOK s e hOK)

/-- A tool-call batch fold does not touch audio state or the connection. -/
lemma foldl_processFC_fields (batch : List FunctionCallEvent) (s : ZudState) :
    ((batch.foldl processFC s).outputAudioContext = s.outputAudioContext) ∧
    ((batch.foldl processFC s).stoppedLog = s.stoppedLog) ∧
    ((batch.foldl processFC s).audioSources = s.audioSources) ∧
    ((batch.foldl processFC s).isLiveConnected = s.isLiveConnected) ∧
    ((batch.foldl processFC s).nextStartTime = s.nextStartTime) := by
  induction batch generalizing s with
  | nil => exact ⟨rfl, rfl, rfl, rfl, rfl⟩
  | cons fc rest ih =>
      have h1 := processFC_fields s fc
      have h2 := ih (processFC s fc)
      exact ⟨h2.1.trans h1.1, h2.2.1.trans h1.2.1, h2.2.2.1.trans h1.2.2.1,
             h2.2.2.2.1.trans h1.2.2.2.1, h2.2.2.2.2.trans h1.2.2.2.2⟩

/-- `toolCallStep` does not touch audio state or the connection. -/
lemma toolCallStep_fields (s : ZudState) (msg : ServerMsg) :
    ((toolCallStep s msg).outputAudioContext = s.outputAudioContext) ∧
    ((toolCallStep s msg).stoppedLog = s.stoppedLog) ∧
    ((toolCallStep s msg).audioSources = s.audioSources) ∧
    ((toolCallStep s msg).isLiveConnected = s.isLiveConnected) ∧
    ((toolCallStep s msg).nextStartTime = s.nextStartTime) := by
  unfold toolCallStep
  cases msg.toolCall with
  | none => exact ⟨rfl, rfl, rfl, rfl, rfl⟩
  | some batch =>
      exact foldl_processFC_fields batch
        { addMessage s (handoffMessage s.now) with status := "Thinking..." }

/-- `turnCompleteStep` does not touch audio state or the connection. -/
lemma turnCompleteStep_fields (s : ZudState) :
    ((turnCompleteStep s).outputAudioContext = s.outputAudioContext) ∧
    ((turnCompleteStep s).stoppedLog = s.stoppedLog) ∧
    ((turnCompleteStep s).audioSources = s.audioSources) ∧
    ((turnCompleteStep s).isLiveConnected = s.isLiveConnected) ∧
    ((turnCompleteStep s).nextStartTime = s.nextStartTime) := by
  unfold turnCompleteStep addMessage
  repeat' split
  all_goals try dsimp only
  all_goals repeat' split
  all_goals and_intros
  all_goals rfl

/-- Before the interruption check, `onmessage` has preserved the output
context, the stop log and the connection flag, and has at most appended to
the active source set. -/
lemma preInterruptState_fields (s : ZudState) (msg : ServerMsg) :
    ((preInterruptState s msg).outputAudioContext = s.outputAudioContext) ∧
    ((preInterruptState s msg).stoppedLog = s.stoppedLog) ∧
    ((preInterruptState s msg).isLiveConnected = s.isLiveConnected) ∧
    (∃ extra, (preInterruptState s msg).audioSources = s.audioSources ++ extra) := by
  unfold preInterruptState
  try dsimp only
  have f1 := transcriptionStep_fields s msg
  set s1 := transcriptionStep s msg with hs1
  have f2 := toolCallStep_fields s1 msg
  set s2 := toolCallStep s1 msg with hs2
  have f3 : ((if msg.turnComplete then turnCompleteStep s2 else s2).outputAudioContext
        = s2.outputAudioContext) ∧
      ((if msg.turnComplete then turnCompleteStep s2 else s2).stoppedLog = s2.stoppedLog) ∧
      ((if msg.turnComplete then turnCompleteStep s2 else s2).audioSources = s2.audioSources) ∧
      ((if msg.turnComplete then turnCompleteStep s2 else s2).isLiveConnected
        = s2.isLiveConnected) := by
    split
    · exact ⟨(turnCompleteStep_fields s2).1, (turnCompleteStep_fields s2).2.1,
             (turnCompleteStep_fields s2).2.2.1, (turnCompleteStep_fields s2).2.2.2.1⟩
    · exact ⟨rfl, rfl, rfl, rfl⟩
  set s3 := if msg.turnComplete then turnCompleteStep s2 else s2 with hs3
  cases msg.audioData with
  | none =>
      refine ⟨?_, ?_, ?_, ⟨[], ?_⟩⟩
      · rw [f3.1, f2.1, f1.1]
      · rw [f3.2.1, f2.2.1, f1.2.1]
      · rw [f3.2.2.2, f2.2.2.2.1, (transcriptionStep_fields s msg).2.2.2.2.1]
      · rw [List.append_nil, f3.2.2.1, f2.2.2.1, f1.2.2.1]
  | some f =>
      try dsimp only
      split
      · refine ⟨?_, ?_, ?_, ⟨[⟨s3.nextSourceId, msg.turnComplete⟩], ?_⟩⟩
        · show s3.outputAudioContext = s.outputAudioContext
          rw [f3.1, f2.1, f1.1]
        · show s3.stoppedLog = s.stoppedLog
          rw [f3.2.1, f2.2.1, f1.2.1]
        · show s3.isLiveConnected = s.isLiveConnected
          rw [f3.2.2.2, f2.2.2.2.1, (transcriptionStep_fields s msg).2.2.2.2.1]
        · show s3.audioSources ++ _ = s.audioSources ++ _
          rw [f3.2.2.1, f2.2.2.1, f1.2.2.1]
      · refine ⟨?_, ?_, ?_, ⟨[], ?_⟩⟩
        · rw [f3.1, f2.1, f1.1]
        · rw [f3.2.1, f2.2.1, f1.2.1]
        · rw [f3.2.2.2, f2.2.2.2.1, (transcriptionStep_fields s msg).2.2.2.2.1]
        · rw [List.append_nil, f3.2.2.1, f2.2.2.1, f1.2.2.1]

attribute [ext] ZudState

/-- C2: `stop` is idempotent — called in any idle state (no session, no
audio resources, already disconnected, `status = 'Ready'`, no error) it
produces no state change — and it is a total function whose result does
not depend on whether closing the remote session or either audio context
fails: those errors are swallowed (`.catch(console.error)`) and never
reach the caller. -/
theorem c2_stop_idempotent_and_swallows_errors (s : ZudState)
    (env env' : StopEnv) :
    (IsIdle s → stop s env = s) ∧ stop s env = stop s env' := by
  constructor
  · intro hid
    obtain ⟨h1, h2, h3, h4, h5, h6, h7, h8, h9⟩ := hid
    unfold stop stopAudioPlayback
    try dsimp only
    split
    · simp_all
    · split
      · simp_all
      · apply ZudState.ext <;> first
          | rfl
          | exact h2.symm
          | exact h3.symm
          | exact h4.symm
          | exact h5.symm
          | exact h7.symm
          | exact h8.symm
          | exact h9.symm
  · rfl

/-- Witness for C2 at the mount state, with all three close operations
failing. -/
theorem c2_witness :
    stop initialState ⟨true, true, true⟩ = initialState ∧
    stop initialState ⟨true, true, true⟩ = stop initialState ⟨false, false, false⟩ :=
  ⟨(c2_stop_idempotent_and_swallows_errors initialState ⟨true, true, true⟩
      ⟨false, false, false⟩).1 (by decide),
   (c2_stop_idempotent_and_swallows_errors initialState ⟨true, true, true⟩
      ⟨false, false, false⟩).2⟩

/-- C4: along every run of the hook from the mount state, every message in
the message list — whichever code path appended it (leading image, handoff
notice, tool results, tool errors, turn transcripts) — has a non-empty
`parts` sequence. -/
theorem c4_every_appended_message_has_parts (tr : List Event) (m : Message)
    (hm : m ∈ (runFull initialState tr).messages) : m.parts ≠ [] :=
  runFull_partsOK tr initialState (fun x hx => absurd hx (List.not_mem_nil x)) m hm

/-- Witness for C4: a run receiving a tool-call batch appends the handoff
notice, whose parts are non-empty. -/
theorem c4_witness : (handoffMessage 0).parts ≠ [] :=
  c4_every_appended_message_has_parts
    [Event.onMessage ⟨none, none, some [], false, none, false⟩]
    (handoffMessage 0) (by decide)

/-- A state mid-playback: output context live, two sources scheduled. -/
def playbackDemoState : ZudState :=
  { initialState with outputAudioContext := true
                      audioSources := [⟨0, false⟩, ⟨1, false⟩]
                      nextSourceId := 2
                      nextStartTime := 5 }

/-- A server message carrying only an interruption signal. -/
def interruptMsg : ServerMsg :=
  { outputTranscription := none, inputTranscription := none, toolCall := none,
    turnComplete := false, audioData := none, interrupted := true }

/-- C9: when a message carrying the interruption signal is handled during
an active session (output context live), every playback source that was
scheduled is stopped (`source.stop()` is called on it), the active source
set becomes empty, and the scheduling clock resets to zero — however
many fragments were queued. -/
theorem c9_interruption_clears_playback (s : ZudState) (msg : ServerMsg)
    (hctx : s.outputAudioContext = true) (hint : msg.interrupted = true) :
    (onMessageStep s msg).audioSources = [] ∧
    (onMessageStep s msg).nextStartTime = 0 ∧
    ∀ a ∈ s.audioSources, a.id ∈ (onMessageStep s msg).stoppedLog := by
  have hp := preInterruptState_fields s msg
  obtain ⟨extra, hextra⟩ := hp.2.2.2
  unfold onMessageStep
  try dsimp only
  rw [if_pos hint]
  unfold stopAudioPlayback
  rw [if_pos (show (preInterruptState s msg).outputAudioContext = true from by
        rw [hp.1]; exact hctx)]
  refine ⟨rfl, rfl, ?_⟩
  intro a ha
  show a.id ∈ (preInterruptState s msg).stoppedLog ++
    ((preInterruptState s msg).audioSources.map (fun a => a.id))
  apply List.mem_append_right
  rw [hextra, List.map_append]
  exact List.mem_append_left _ (List.mem_map_of_mem _ ha)

/-- `onMessageStep` appends nothing after block 4: its message list is the
pre-interrupt one. -/
lemma onMessageStep_messages_eq (s : ZudState) (msg : ServerMsg) :
    (onMessageStep s msg).messages = (preInterruptState s msg).messages := by
  unfold onMessageStep
  try dsimp only
  split
  · exact (stopAudioPlayback_fields _).1
  · rfl

/-- Blocks 3-4 of `onmessage` only append messages after the tool-call
block. -/
lemma preInterruptState_messages (s : ZudState) (msg : ServerMsg) :
    ∃ t, (preInterruptState s msg).messages
      = (toolCallStep (transcriptionStep s msg) msg).messages ++ t := by
  unfold preInterruptState
  try dsimp only
  set s2 := toolCallStep (transcriptionStep s msg) msg with hs2
  obtain ⟨t, ht⟩ : ∃ t, (if msg.turnComplete then turnCompleteStep s2 else s2).messages
      = s2.messages ++ t := by
    split
    · exact turnCompleteStep_messages s2
    · exact ⟨[], (List.append_nil _).symm⟩
  refine ⟨t, ?_⟩
  set s3 := if msg.turnComplete then turnCompleteStep s2 else s2 with hs3
  cases msg.audioData with
  | none => exact ht
  | some f =>
      try dsimp only
      split
      · exact ht
      · exact ht

/-- C10: whenever a server message carries a tool-call batch — whatever the
batch's contents, even the empty batch — the fixed handoff notice is
appended right after the pre-existing messages, before anything the batch
itself produces; so every tool-call message appends at least one message. -/
theorem c10_handoff_always_first (s : ZudState) (msg : ServerMsg)
    (batch : List FunctionCallEvent) (h : msg.toolCall = some batch) :
    (onMessageStep s msg).messages.take (s.messages.length + 1)
      = s.messages ++ [handoffMessage s.now] ∧
    s.messages.length + 1 ≤ (onMessageStep s msg).messages.length := by
  obtain ⟨t, hpre⟩ := preInterruptState_messages s msg
  have heq := onMessageStep_messages_eq s msg
  rcases toolCallStep_messages (transcriptionStep s msg) msg with ⟨hnone, _⟩ |
    ⟨batch', t', hsome, htc⟩
  · rw [h] at hnone
    cases hnone
  · have hmsgs : (onMessageStep s msg).messages
        = (s.messages ++ [handoffMessage s.now]) ++ (t' ++ t) := by
      rw [heq, hpre, htc, (transcriptionStep_fields s msg).2.2.2.1,
          transcriptionStep_now]
      simp [List.append_assoc]
    constructor
    · rw [hmsgs,
          show s.messages.length + 1 = (s.messages ++ [handoffMessage s.now]).length by simp]
      exact List.take_left _ _
    · rw [hmsgs]
      simp

/-- Witness for C10: the empty tool-call batch still appends exactly the
handoff notice. -/
theorem c10_witness :
    (onMessageStep initialState ⟨none, none, some [], false, none, false⟩).messages.take
        (initialState.messages.length + 1)
      = initialState.messages ++ [handoffMessage initialState.now] ∧
    initialState.messages.length + 1
      ≤ (onMessageStep initialState ⟨none, none, some [], false, none, false⟩).messages.length :=
  c10_handoff_always_first initialState ⟨none, none, some [], false, none, false⟩ [] rfl

/-- A server message carrying exactly one tool call and nothing else. -/
def singleCallMsg (fc : FunctionCallEvent) : ServerMsg :=
  { outputTranscription := none, inputTranscription := none,
    toolCall := some [fc], turnComplete := false, audioData := none,
    interrupted := false }

/-- Handling a message that carries only a one-call batch is exactly: the
handoff notice, `status = 'Thinking...'`, the call processed, the clock
tick. -/
lemma onMessageStep_singleCall (s : ZudState) (fc : FunctionCallEvent) :
    onMessageStep s (singleCallMsg fc)
      = { processFC { addMessage s (handoffMessage s.now) with status := "Thinking..." } fc
          with now := (processFC { addMessage s (handoffMessage s.now) with
            status := "Thinking..." } fc).now + 1 } := rfl

/-- `resolveFC` on a `generateImage` call whose invocation throws takes the
catch path. -/
lemma resolveFC_generateImage_error (s : ZudState) (fc : FunctionCallEvent)
    (em : String) (hname : fc.name = "generateImage") (hai : s.aiRef = true)
    (hout : fc.imageOutcome = .error em) :
    resolveFC s fc = toolCatch s em := by
  unfold resolveFC
  rw [if_pos (⟨hname, hai⟩ : fc.name = "generateImage" ∧ s.aiRef = true), hout]

/-- Unfolding `processFC` through a known `resolveFC` result. -/
lemma processFC_eq_of_resolve (s : ZudState) (fc : FunctionCallEvent)
    (p : ZudState × Option FunctionResponse) (h : resolveFC s fc = p) :
    processFC s fc = sendIfLive p.1 fc p.2 := by
  unfold processFC
  rw [h]

/-- The model message the catch path appends (line 328). -/
def toolErrorMessage (now : Nat) (em : String) : Message :=
  { id := toString now, speaker := .model,
    parts := [.text ("An error occurred: " ++ em)] }

/-- The structured failure the catch path sends back (line 329). -/
def toolFailureResponse (fc : FunctionCallEvent) (em : String) : ToolResponse :=
  { id := fc.id, name := fc.name,
    response := some (.failure ("Tool execution failed: " ++ em)) }

/-- `processFC` on a throwing `generateImage` call: error surfaced, one
error message appended, one structured failure sent (session ref
present). -/
lemma processFC_generateImage_error (s : ZudState) (fc : FunctionCallEvent)
    (em : String) (sid : Nat) (hname : fc.name = "generateImage")
    (hai : s.aiRef = true) (hout : fc.imageOutcome = .error em)
    (hsid : s.sessionPromise = some sid) :
    processFC s fc =
      { s with error := some ("Error with tool: " ++ em)
               messages := s.messages ++ [toolErrorMessage s.now em]
               sentToolResponses := s.sentToolResponses ++ [toolFailureResponse fc em] } := by
  rw [processFC_eq_of_resolve s fc _ (resolveFC_generateImage_error s fc em hname hai hout)]
  unfold toolCatch sendIfLive addMessage toolErrorMessage toolFailureResponse
  try dsimp only
  rw [hsid]

/-- The fixed handoff notice can never read as a tool-error message. -/
lemma handoff_text_ne_error_text (em : String) :
    "Let me check with my partner AI for better assistance..."
      ≠ "An error occurred: " ++ em := by
  intro h
  have h0 := congrArg (fun str => str.data.head?) h
  simp [String.data_append] at h0

/-- C5: a one-call tool batch whose `generateImage` invocation throws, in a
connected state with the session ref set: exactly the handoff notice plus
one model message carrying the error text are appended (the notice does not
carry it), exactly one tool response — a structured failure — is sent, the
error is surfaced, and the session stays connected. -/
theorem c5_generate_image_failure_is_local (s : ZudState)
    (fc : FunctionCallEvent) (em : String) (sid : Nat)
    (hconn : s.isLiveConnected = true) (hai : s.aiRef = true)
    (hsid : s.sessionPromise = some sid) (hname : fc.name = "generateImage")
    (hout : fc.imageOutcome = .error em) :
    (onMessageStep s (singleCallMsg fc)).messages
      = s.messages ++ [handoffMessage s.now, toolErrorMessage s.now em] ∧
    (handoffMessage s.now).parts ≠ (toolErrorMessage s.now em).parts ∧
    (onMessageStep s (singleCallMsg fc)).sentToolResponses
      = s.sentToolResponses ++ [toolFailureResponse fc em] ∧
    (onMessageStep s (singleCallMsg fc)).error = some ("Error with tool: " ++ em) ∧
    (onMessageStep s (singleCallMsg fc)).isLiveConnected = true := by
  have h2ai : ({ addMessage s (handoffMessage s.now) with
      status := "Thinking..." } : ZudState).aiRef = true := hai
  have h2sid : ({ addMessage s (handoffMessage s.now) with
      status := "Thinking..." } : ZudState).sessionPromise = some sid := hsid
  have hres := processFC_generateImage_error
    { addMessage s (handoffMessage s.now) with status := "Thinking..." }
    fc em sid hname h2ai hout h2sid
  rw [onMessageStep_singleCall, hres]
  refine ⟨?_, ?_, ?_, ?_, ?_⟩
  · simp [addMessage]
  · intro h
    simp only [handoffMessage, toolErrorMessage, List.cons.injEq] at h
    exact handoff_text_ne_error_text em (by
      have h1 := h.1
      injection h1)
  · simp [addMessage]
  · rfl
  · exact hconn

/-- A connected mid-session state: session 0 open, capture running. -/
def liveDemoState : ZudState :=
  { initialState with status := "Listening..."
                      isLiveConnected := true
                      aiRef := true
                      sessionPromise := some 0
                      openSessions := [0]
                      outputAudioContext := true
                      inputAudioContext := true
                      microphoneStream := true
                      scriptProcessor := true
                      nextSessionId := 1 }

/-- A `generateImage` call whose invocation throws. -/
def failingImageCall : FunctionCallEvent :=
  { id := "call-1", name := "generateImage", prompt := "a cat", query := "",
    imageOutcome := .error "boom", searchOutcome := .ok (none, none),
    youtubeOutcome := .ok [] }

/-- Witness for C5 in the connected demo state. -/
theorem c5_witness :
    (onMessageStep liveDemoState (singleCallMsg failingImageCall)).messages
      = liveDemoState.messages ++ [handoffMessage liveDemoState.now,
          toolErrorMessage liveDemoState.now "boom"] ∧
    (handoffMessage liveDemoState.now).parts
      ≠ (toolErrorMessage liveDemoState.now "boom").parts ∧
    (onMessageStep liveDemoState (singleCallMsg failingImageCall)).sentToolResponses
      = liveDemoState.sentToolResponses ++ [toolFailureResponse failingImageCall "boom"] ∧
    (onMessageStep liveDemoState (singleCallMsg failingImageCall)).error
      = some ("Error with tool: " ++ "boom") ∧
    (onMessageStep liveDemoState (singleCallMsg failingImageCall)).isLiveConnected = true :=
  c5_generate_image_failure_is_local liveDemoState failingImageCall "boom" 0
    rfl rfl rfl rfl rfl

/-- A sent tool response with no result: `{ id, name, response: undefined }`. -/
def noResultResponse (fc : FunctionCallEvent) : ToolResponse :=
  { id := fc.id, name := fc.name, response := none }

/-- C6 amended: a function call whose name is none of `generateImage`,
`googleSearch`, `youtubeSearch` appends no message and surfaces no error,
but a tool response IS still sent for it — one carrying no result (its
`response` field is the JS `undefined`). -/
theorem c6_unknown_call_sends_empty_response (s : ZudState)
    (fc : FunctionCallEvent) (sid : Nat)
    (hni : fc.name ≠ "generateImage") (hns : fc.name ≠ "googleSearch")
    (hny : fc.name ≠ "youtubeSearch") (hsid : s.sessionPromise = some sid) :
    (processFC s fc).messages = s.messages ∧
    (processFC s fc).error = s.error ∧
    (processFC s fc).sentToolResponses
      = s.sentToolResponses ++ [noResultResponse fc] := by
  have hres : resolveFC s fc = (s, none) := by
    unfold resolveFC
    rw [if_neg (fun h => hni h.1), if_neg (fun h => hns h.1), if_neg hny]
  rw [processFC_eq_of_resolve s fc _ hres]
  unfold sendIfLive noResultResponse
  try dsimp only
  rw [hsid]
  exact ⟨rfl, rfl, rfl⟩

/-- A tool call with an unrecognized function name. -/
def unknownCall : FunctionCallEvent :=
  { id := "call-2", name := "doSomethingElse", prompt := "", query := "",
    imageOutcome := .ok "", searchOutcome := .ok (none, none),
    youtubeOutcome := .ok [] }

/-- Counterexample for C6 as stated: in a connected state, handling a
one-call batch with an unrecognized name DOES send a tool response on the
session (the loop's `sendToolResponse` runs unconditionally); the claim
said none is sent. -/
theorem c6_counterexample :
    liveDemoState.sentToolResponses = [] ∧
    (onMessageStep liveDemoState (singleCallMsg unknownCall)).sentToolResponses
      = [{ id := "call-2", name := "doSomethingElse", response := none }] := by
  constructor
  · rfl
  · rfl

/-- Witness for C6 amended at the same input. -/
theorem c6_witness :
    (processFC liveDemoState unknownCall).messages = liveDemoState.messages ∧
    (processFC liveDemoState unknownCall).error = liveDemoState.error ∧
    (processFC liveDemoState unknownCall).sentToolResponses
      = liveDemoState.sentToolResponses ++ [noResultResponse unknownCall] :=
  c6_unknown_call_sends_empty_response liveDemoState unknownCall 0
    (by decide) (by decide) (by decide) rfl

/-- The model message of the `googleSearch` success branch. -/
def googleAnswerMessage (now : Nat) (text : Option String)
    (sources : List WebSource) : Message :=
  { id := toString now, speaker := .model, parts := googleMessageParts text sources }

/-- The tool response of the `googleSearch` success branch. -/
def googleResultResponse (fc : FunctionCallEvent) (text : Option String) :
    ToolResponse :=
  { id := fc.id, name := fc.name, response := some (.result (googleResultText text)) }

/-- The model message of the `googleSearch` empty branch. -/
def gsFallbackMessage (now : Nat) : Message :=
  { id := toString now, speaker := .model, parts := [.text gsFallbackText] }

/-- The tool response of the `googleSearch` empty branch. -/
def gsFallbackResponse (fc : FunctionCallEvent) : ToolResponse :=
  { id := fc.id, name := fc.name, response := some (.result gsFallbackText) }

/-- `processFC` on a `googleSearch` call whose grounded generation
succeeded, with the session ref present. -/
lemma processFC_googleSearch_ok (s : ZudState) (fc : FunctionCallEvent)
    (respText : Option String) (chunks : Option (List (Option WebSource)))
    (sid : Nat) (hname : fc.name = "googleSearch") (hai : s.aiRef = true)
    (hout : fc.searchOutcome = .ok (respText, chunks))
    (hsid : s.sessionPromise = some sid) :
    processFC s fc =
      if textTruthy (respText.map jsTrim) = true ∨ extractSources chunks ≠ [] then
        { s with messages := s.messages ++
            [googleAnswerMessage s.now (respText.map jsTrim) (extractSources chunks)]
                 sentToolResponses := s.sentToolResponses ++
            [googleResultResponse fc (respText.map jsTrim)] }
      else
        { s with messages := s.messages ++ [gsFallbackMessage s.now]
                 sentToolResponses := s.sentToolResponses ++ [gsFallbackResponse fc] } := by
  have hres : resolveFC s fc =
      if textTruthy (respText.map jsTrim) = true ∨ extractSources chunks ≠ [] then
        (addMessage s (googleAnswerMessage s.now (respText.map jsTrim)
          (extractSources chunks)),
         some (.result (googleResultText (respText.map jsTrim))))
      else
        (addMessage s (gsFallbackMessage s.now), some (.result gsFallbackText)) := by
    unfold resolveFC googleAnswerMessage gsFallbackMessage
    rw [if_neg (fun h => by rw [hname] at h; exact absurd h.1 (by decide)),
        if_pos (⟨hname, hai⟩ : fc.name = "googleSearch" ∧ s.aiRef = true), hout]
  rw [processFC_eq_of_resolve s fc _ hres]
  by_cases hc : textTruthy (respText.map jsTrim) = true ∨ extractSources chunks ≠ []
  · rw [if_pos hc, if_pos hc]
    unfold sendIfLive addMessage googleResultResponse
    try dsimp only
    rw [hsid]
  · rw [if_neg hc, if_neg hc]
    unfold sendIfLive addMessage gsFallbackResponse
    try dsimp only
    rw [hsid]

/-- The `googleSearch` success parts when the answer text is truthy: the
text part, then the sources part if any citations exist. -/
def googleTextFirstParts (text : Option String) (sources : List WebSource) :
    List MessagePart :=
  MessagePart.text (text.getD "")
    :: (if sources ≠ [] then [MessagePart.sources sources] else [])

/-- The message appended when the answer text is truthy. -/
def googleTextMessage (now : Nat) (text : Option String)
    (sources : List WebSource) : Message :=
  { id := toString now, speaker := .model, parts := googleTextFirstParts text sources }

/-- The tool response carrying the answer text itself. -/
def googleAnswerResponse (fc : FunctionCallEvent) (text : Option String) :
    ToolResponse :=
  { id := fc.id, name := fc.name, response := some (.result (text.getD "")) }

/-- The message appended when only citations exist. -/
def sourcesOnlyMessage (now : Nat) (sources : List WebSource) : Message :=
  { id := toString now, speaker := .model, parts := [.sources sources] }

/-- The tool response sent when there is no answer text but citations
exist — the acknowledgement string, NOT the fixed fallback. -/
def foundInfoResponse (fc : FunctionCallEvent) : ToolResponse :=
  { id := fc.id, name := fc.name,
    response := some (.result "I found some information for you.") }

/-- C7 amended: for a `googleSearch` call whose grounded generation
succeeded (session ref present): (a) if both the trimmed answer text and
the filtered citation list are empty, the fixed fallback message is
appended and its text sent as the result; (b) if the answer text is
non-empty, a model message with the text part, then the sources part if
citations exist, is appended and the answer text itself is sent; (c) if
the answer text is empty but citations exist, a sources-only message is
appended and the result sent is the fixed acknowledgement `I found some
information for you.` — not the empty-branch fallback. -/
theorem c7_google_search_characterization (s : ZudState)
    (fc : FunctionCallEvent) (respText : Option String)
    (chunks : Option (List (Option WebSource))) (sid : Nat)
    (hname : fc.name = "googleSearch") (hai : s.aiRef = true)
    (hout : fc.searchOutcome = .ok (respText, chunks))
    (hsid : s.sessionPromise = some sid) :
    ((textTruthy (respText.map jsTrim) = false ∧ extractSources chunks = []) →
      (processFC s fc).messages = s.messages ++ [gsFallbackMessage s.now] ∧
      (processFC s fc).sentToolResponses
        = s.sentToolResponses ++ [gsFallbackResponse fc]) ∧
    (textTruthy (respText.map jsTrim) = true →
      (processFC s fc).messages = s.messages ++
        [googleTextMessage s.now (respText.map jsTrim) (extractSources chunks)] ∧
      (processFC s fc).sentToolResponses = s.sentToolResponses ++
        [googleAnswerResponse fc (respText.map jsTrim)]) ∧
    ((textTruthy (respText.map jsTrim) = false ∧ extractSources chunks ≠ []) →
      (processFC s fc).messages = s.messages ++
        [sourcesOnlyMessage s.now (extractSources chunks)] ∧
      (processFC s fc).sentToolResponses = s.sentToolResponses ++ [foundInfoResponse fc]) := by
  have hpc := processFC_googleSearch_ok s fc respText chunks sid hname hai hout hsid
  refine ⟨?_, ?_, ?_⟩
  · rintro ⟨h1, h2⟩
    rw [hpc, if_neg (by simp [h1, h2])]
    exact ⟨rfl, rfl⟩
  · intro h1
    rw [hpc, if_pos (Or.inl h1)]
    constructor
    · rw [show googleAnswerMessage s.now (respText.map jsTrim) (extractSources chunks)
            = googleTextMessage s.now (respText.map jsTrim) (extractSources chunks) by
          unfold googleAnswerMessage googleTextMessage googleMessageParts googleTextFirstParts
          simp [h1]]
    · rw [show googleResultResponse fc (respText.map jsTrim)
            = googleAnswerResponse fc (respText.map jsTrim) by
          unfold googleResultResponse googleAnswerResponse googleResultText
          simp [h1]]
  · rintro ⟨h1, h2⟩
    rw [hpc, if_pos (Or.inr h2)]
    constructor
    · rw [show googleAnswerMessage s.now (respText.map jsTrim) (extractSources chunks)
            = sourcesOnlyMessage s.now (extractSources chunks) by
          unfold googleAnswerMessage sourcesOnlyMessage googleMessageParts
          simp [h1, h2]]
    · rw [show googleResultResponse fc (respText.map jsTrim)
            = foundInfoResponse fc by
          unfold googleResultResponse foundInfoResponse googleResultText
          simp [h1]]

/-- A `googleSearch` call returning no answer text but one good citation. -/
def sourcesOnlySearchCall : FunctionCallEvent :=
  { id := "call-3", name := "googleSearch", prompt := "", query := "q",
    imageOutcome := .ok "",
    searchOutcome := .ok (none, some [some ⟨"https://u", "T"⟩]),
    youtubeOutcome := .ok [] }

/-- Counterexample for C7 as stated: with no answer text but one citation,
the result sent back is the acknowledgement `I found some information for
you.`, which is not the fixed fallback text the claim promises. -/
theorem c7_counterexample :
    textTruthy ((none : Option String).map jsTrim) = false ∧
    (processFC liveDemoState sourcesOnlySearchCall).sentToolResponses
      = [foundInfoResponse sourcesOnlySearchCall] ∧
    "I found some information for you." ≠ gsFallbackText := by
  refine ⟨rfl, rfl, ?_⟩
  decide

/-- A `googleSearch` call returning an answer text (with whitespace to
trim) and one good citation. -/
def answerSearchCall : FunctionCallEvent :=
  { id := "call-4", name := "googleSearch", prompt := "", query := "q2",
    imageOutcome := .ok "",
    searchOutcome := .ok (some " Answer ", some [some ⟨"https://u", "T"⟩]),
    youtubeOutcome := .ok [] }

/-- Witness for C7 amended, non-empty-text case. -/
theorem c7_witness :
    (processFC liveDemoState answerSearchCall).messages
      = liveDemoState.messages ++
        [googleTextMessage liveDemoState.now ((some " Answer ").map jsTrim)
          (extractSources (some [some ⟨"https://u", "T"⟩]))] ∧
    (processFC liveDemoState answerSearchCall).sentToolResponses
      = liveDemoState.sentToolResponses ++
        [googleAnswerResponse answerSearchCall ((some " Answer ").map jsTrim)] :=
  (c7_google_search_characterization liveDemoState answerSearchCall (some " Answer ")
    (some [some ⟨"https://u", "T"⟩]) 0 rfl rfl rfl rfl).2.1 (by decide)

/-- Witness for C9: two queued sources, both stopped, clock reset. -/
theorem c9_witness :
    (onMessageStep playbackDemoState interruptMsg).audioSources = [] ∧
    (onMessageStep playbackDemoState interruptMsg).nextStartTime = 0 ∧
    (0 : Nat) ∈ (onMessageStep playbackDemoState interruptMsg).stoppedLog ∧
    (1 : Nat) ∈ (onMessageStep playbackDemoState interruptMsg).stoppedLog := by
  have h := c9_interruption_clears_playback playbackDemoState interruptMsg rfl rfl
  exact ⟨h.1, h.2.1, h.2.2 ⟨0, false⟩ (by decide), h.2.2 ⟨1, false⟩ (by decide)⟩

/-- Handling an audio-only message in a state with a live output context is
exactly one playback-scheduling step plus the clock tick. -/
lemma onMessageStep_audioOnly (s : ZudState) (f : AudioFragment)
    (hctx : s.outputAudioContext = true) :
    onMessageStep s (audioOnlyMsg f)
      = { playAudioFragment s f false with
          now := (playAudioFragment s f false).now + 1 } := by
  unfold onMessageStep preInterruptState audioOnlyMsg transcriptionStep toolCallStep
  simp [hctx]

/-- The schedule the playback pipeline produces from clock floor `t`:
each fragment starts at `max (previous end) (its arrival clock)` and ends
`duration` later. -/
def schedFrom (t : ℚ) : List AudioFragment → List (ℚ × ℚ)
  | [] => []
  | f :: fs =>
      (max t f.clock, max t f.clock + f.duration)
        :: schedFrom (max t f.clock + f.duration) fs

/-- The clock floor after scheduling all fragments. -/
def schedEnd (t : ℚ) : List AudioFragment → ℚ
  | [] => t
  | f :: fs => schedEnd (max t f.clock + f.duration) fs

/-- Delivering a sequence of audio fragments produces exactly the
`schedFrom` schedule appended to the log, leaves the output context live,
and leaves `nextStartTime` at the schedule's end. -/
lemma runAudioMsgs_schedule (frags : List AudioFragment) (s : ZudState)
    (hctx : s.outputAudioContext = true) :
    (runAudioMsgs s frags).scheduleLog
      = s.scheduleLog ++ schedFrom s.nextStartTime frags ∧
    (runAudioMsgs s frags).nextStartTime = schedEnd s.nextStartTime frags ∧
    (runAudioMsgs s frags).outputAudioContext = true := by
  induction frags generalizing s with
  | nil => exact ⟨(List.append_nil _).symm, rfl, hctx⟩
  | cons f fs ih =>
      have hstep : runAudioMsgs s (f :: fs)
          = runAudioMsgs { playAudioFragment s f false with
              now := (playAudioFragment s f false).now + 1 } fs := by
        unfold runAudioMsgs
        rw [List.foldl_cons, onMessageStep_audioOnly s f hctx]
      have hctx' : ({ playAudioFragment s f false with
          now := (playAudioFragment s f false).now + 1 } : ZudState).outputAudioContext
          = true := hctx
      obtain ⟨h1, h2, h3⟩ := ih { playAudioFragment s f false with
        now := (playAudioFragment s f false).now + 1 } hctx'
      rw [hstep]
      refine ⟨?_, ?_, h3⟩
      · rw [h1]
        show (s.scheduleLog ++ [(max s.nextStartTime f.clock,
            max s.nextStartTime f.clock + f.duration)])
          ++ schedFrom (max s.nextStartTime f.clock + f.duration) fs = _
        rw [List.append_assoc]
        rfl
      · rw [h2]
        rfl

/-- `schedFrom` yields one interval per fragment. -/
lemma schedFrom_length (t : ℚ) (frags : List AudioFragment) :
    (schedFrom t frags).length = frags.length := by
  induction frags generalizing t with
  | nil => rfl
  | cons f fs ih =>
      unfold schedFrom
      simp [ih]

/-- Every scheduled start is at least the fragment's arrival clock. -/
lemma schedFrom_start_ge_clock (frags : List AudioFragment) (t : ℚ) (j : Nat)
    (hj : j < frags.length) :
    (frags.getD j default).clock ≤ ((schedFrom t frags).getD j (0, 0)).1 := by
  induction frags generalizing t j with
  | nil => cases hj
  | cons f fs ih =>
      cases j with
      | zero => exact le_max_right t f.clock
      | succ j =>
          exact ih (max t f.clock + f.duration) j (Nat.lt_of_succ_lt_succ hj)

/-- Each scheduled start equals `max (previous end) (arrival clock)`. -/
lemma schedFrom_consecutive (frags : List AudioFragment) (t : ℚ) (i : Nat)
    (hi : i + 1 < frags.length) :
    ((schedFrom t frags).getD (i + 1) (0, 0)).1
      = max ((schedFrom t frags).getD i (0, 0)).2 ((frags.getD (i + 1) default).clock) := by
  induction frags generalizing t i with
  | nil => cases hi
  | cons f fs ih =>
      cases i with
      | zero =>
          cases fs with
          | nil => simp at hi
          | cons g gs => rfl
      | succ i =>
          exact ih (max t f.clock + f.duration) i (Nat.lt_of_succ_lt_succ hi)

/-- C8: playback scheduling is monotonic: delivering any sequence of audio
fragments (no interruption between them) into a state with a live output
context and fresh schedule log, each fragment's scheduled start equals
`max (previous fragment's scheduled end) (playback clock at its arrival)`,
hence is at least the previous fragment's scheduled end and at least the
clock at arrival; also every fragment's start is at least its own arrival
clock. -/
theorem c8_monotonic_scheduling (s : ZudState) (frags : List AudioFragment)
    (hctx : s.outputAudioContext = true) (hlog : s.scheduleLog = []) :
    ((runAudioMsgs s frags).scheduleLog.length = frags.length) ∧
    (∀ j, j < frags.length →
      (frags.getD j default).clock
        ≤ (((runAudioMsgs s frags).scheduleLog).getD j (0, 0)).1) ∧
    (∀ i, i + 1 < frags.length →
      (((runAudioMsgs s frags).scheduleLog).getD (i + 1) (0, 0)).1
        = max (((runAudioMsgs s frags).scheduleLog).getD i (0, 0)).2
            ((frags.getD (i + 1) default).clock) ∧
      (((runAudioMsgs s frags).scheduleLog).getD i (0, 0)).2
        ≤ (((runAudioMsgs s frags).scheduleLog).getD (i + 1) (0, 0)).1 ∧
      (frags.getD (i + 1) default).clock
        ≤ (((runAudioMsgs s frags).scheduleLog).getD (i + 1) (0, 0)).1) := by
  obtain ⟨h1, h2, h3⟩ := runAudioMsgs_schedule frags s hctx
  rw [hlog, List.nil_append] at h1
  rw [h1]
  refine ⟨schedFrom_length _ _, ?_, ?_⟩
  · intro j hj
    exact schedFrom_start_ge_clock frags s.nextStartTime j hj
  · intro i hi
    have heq := schedFrom_consecutive frags s.nextStartTime i hi
    refine ⟨heq, ?_, ?_⟩
    · rw [heq]
      exact le_max_left _ _
    · rw [heq]
      exact le_max_right _ _

/-- Witness for C8: two fragments, the second arriving while the first is
still scheduled. -/
theorem c8_witness :
    ((runAudioMsgs playbackDemoState [⟨0, 1⟩, ⟨2, 3⟩]).scheduleLog.getD 1 (0, 0)).1
      = max ((runAudioMsgs playbackDemoState [⟨0, 1⟩, ⟨2, 3⟩]).scheduleLog.getD 0 (0, 0)).2
          ((([⟨0, 1⟩, ⟨2, 3⟩] : List AudioFragment).getD 1 default).clock) ∧
    ((runAudioMsgs playbackDemoState [⟨0, 1⟩, ⟨2, 3⟩]).scheduleLog.getD 0 (0, 0)).2
      ≤ ((runAudioMsgs playbackDemoState [⟨0, 1⟩, ⟨2, 3⟩]).scheduleLog.getD 1 (0, 0)).1 ∧
    (([⟨0, 1⟩, ⟨2, 3⟩] : List AudioFragment).getD 1 default).clock
      ≤ ((runAudioMsgs playbackDemoState [⟨0, 1⟩, ⟨2, 3⟩]).scheduleLog.getD 1 (0, 0)).1 :=
  (c8_monotonic_scheduling playbackDemoState [⟨0, 1⟩, ⟨2, 3⟩] rfl rfl).2.2 0 (by decide)

/-- The session-bookkeeping fields as one tuple. -/
def sessionView (s : ZudState) : List Nat × List Nat × Option Nat × Bool :=
  (s.pendingSessions, s.openSessions, s.sessionPromise, s.isLiveConnected)

/-- `transcriptionStep` touches no session bookkeeping. -/
lemma sessionView_transcriptionStep (s : ZudState) (msg : ServerMsg) :
    sessionView (transcriptionStep s msg) = sessionView s := by
  unfold sessionView transcriptionStep
  repeat' split
  all_goals rfl

/-- `resolveFC` touches no session bookkeeping. -/
lemma sessionView_resolveFC (s : ZudState) (fc : FunctionCallEvent) :
    sessionView (resolveFC s fc).1 = sessionView s := by
  unfold sessionView resolveFC toolCatch addMessage
  repeat' split
  all_goals try dsimp only
  all_goals repeat' split
  all_goals rfl

/-- `processFC` touches no session bookkeeping. -/
lemma sessionView_processFC (s : ZudState) (fc : FunctionCallEvent) :
    sessionView (processFC s fc) = sessionView s := by
  unfold processFC
  have h1 : sessionView (sendIfLive (resolveFC s fc).1 fc (resolveFC s fc).2)
      = sessionView (resolveFC s fc).1 := by
    unfold sessionView sendIfLive
    repeat' split
    all_goals rfl
  exact h1.trans (sessionView_resolveFC s fc)

/-- A tool-call batch fold touches no session bookkeeping. -/
lemma sessionView_foldl_processFC (batch : List FunctionCallEvent) (s : ZudState) :
    sessionView (batch.foldl processFC s) = sessionView s := by
  induction batch generalizing s with
  | nil => rfl
  | cons fc rest ih => exact (ih (processFC s fc)).trans (sessionView_processFC s fc)

/-- `toolCallStep` touches no session bookkeeping. -/
lemma sessionView_toolCallStep (s : ZudState) (msg : ServerMsg) :
    sessionView (toolCallStep s msg) = sessionView s := by
  unfold toolCallStep
  cases msg.toolCall with
  | none => rfl
  | some batch =>
      exact sessionView_foldl_processFC batch
        { addMessage s (handoffMessage s.now) with status := "Thinking..." }

/-- `turnCompleteStep` touches no session bookkeeping. -/
lemma sessionView_turnCompleteStep (s : ZudState) :
    sessionView (turnCompleteStep s) = sessionView s := by
  unfold sessionView turnCompleteStep addMessage
  repeat' split
  all_goals try dsimp only
  all_goals repeat' split
  all_goals rfl

/-- `stopAudioPlayback` touches no session bookkeeping. -/
lemma sessionView_stopAudioPlayback (s : ZudState) :
    sessionView (stopAudioPlayback s) = sessionView s := by
  unfold sessionView stopAudioPlayback
  repeat' split
  all_goals rfl

/-- `onMessageStep` touches no session bookkeeping. -/
lemma sessionView_onMessageStep (s : ZudState) (msg : ServerMsg) :
    sessionView (onMessageStep s msg) = sessionView s := by
  unfold onMessageStep preInterruptState
  try dsimp only
  have h1 := sessionView_transcriptionStep s msg
  set s1 := transcriptionStep s msg with hs1
  have h2 := sessionView_toolCallStep s1 msg
  set s2 := toolCallStep s1 msg with hs2
  have h3 : sessionView (if msg.turnComplete then turnCompleteStep s2 else s2)
      = sessionView s2 := by
    split
    · exact sessionView_turnCompleteStep s2
    · rfl
  set s3 := if msg.turnComplete then turnCompleteStep s2 else s2 with hs3
  have h4 : sessionView (match msg.audioData with
      | some f => if s3.outputAudioContext then playAudioFragment s3 f msg.turnComplete else s3
      | none => s3) = sessionView s3 := by
    cases msg.audioData with
    | none => rfl
    | some f =>
        try dsimp only
        split
        · rfl
        · rfl
  set s4 := (match msg.audioData with
      | some f => if s3.outputAudioContext then playAudioFragment s3 f msg.turnComplete else s3
      | none => s3) with hs4
  have h5 : sessionView (if msg.interrupted then stopAudioPlayback s4 else s4)
      = sessionView s4 := by
    split
    · exact sessionView_stopAudioPlayback s4
    · rfl
  exact (h5.trans (h4.trans (h3.trans (h2.trans h1))))

/-- `sourceEndedStep` touches no session bookkeeping. -/
lemma sessionView_sourceEndedStep (s : ZudState) (sid : Nat) :
    sessionView (sourceEndedStep s sid) = sessionView s := by
  unfold sessionView sourceEndedStep
  repeat' split
  all_goals try dsimp only
  all_goals repeat' split
  all_goals rfl

/-- `stop` disconnects and nulls the session ref; it erases the referenced
session from the open and pending lists. -/
lemma stop_sessions (s : ZudState) (env : StopEnv) :
    (stop s env).isLiveConnected = false ∧
    (stop s env).sessionPromise = none ∧
    ((s.sessionPromise = none ∧ (stop s env).openSessions = s.openSessions ∧
        (stop s env).pendingSessions = s.pendingSessions) ∨
     (∃ sid, s.sessionPromise = some sid ∧
        (stop s env).openSessions = s.openSessions.erase sid ∧
        (stop s env).pendingSessions = s.pendingSessions.erase sid)) := by
  unfold stop stopAudioPlayback
  try dsimp only
  repeat' split
  all_goals first
    | exact ⟨rfl, by assumption, .inl ⟨by assumption, rfl, rfl⟩⟩
    | exact ⟨rfl, rfl, .inr ⟨_, by assumption, rfl, rfl⟩⟩

/-- The single-session invariant of serialized executions: no pending
connect between turns; when connected, exactly one session is open and it
is the referenced one; when disconnected, no session is open. -/
def SerialInv (s : ZudState) : Prop :=
  s.pendingSessions = [] ∧
  (s.isLiveConnected = true → ∃ n, s.openSessions = [n] ∧ s.sessionPromise = some n) ∧
  (s.isLiveConnected = false → s.openSessions = [])

/-- `SerialInv` only depends on the session bookkeeping. -/
lemma SerialInv_of_sessionView (s' s : ZudState)
    (h : sessionView s' = sessionView s) (hinv : SerialInv s) : SerialInv s' := by
  unfold sessionView at h
  simp only [Prod.mk.injEq] at h
  obtain ⟨hp, ho, hsp, hc⟩ := h
  refine ⟨hp.trans hinv.1, ?_, ?_⟩
  · intro hct
    rw [hc] at hct
    obtain ⟨n, hn1, hn2⟩ := hinv.2.1 hct
    exact ⟨n, ho.trans hn1, hsp.trans hn2⟩
  · intro hcf
    rw [hc] at hcf
    exact ho.trans (hinv.2.2 hcf)

/-- `stop` preserves the single-session invariant. -/
lemma SerialInv_stop (s : ZudState) (env : StopEnv) (hinv : SerialInv s) :
    SerialInv (stop s env) := by
  obtain ⟨hc, hsp, hrest⟩ := stop_sessions s env
  refine ⟨?_, ?_, ?_⟩
  · rcases hrest with ⟨_, _, hp⟩ | ⟨sid, _, _, hp⟩ <;> rw [hp, hinv.1] <;> simp
  · intro h
    rw [hc] at h
    exact Bool.noConfusion h
  · intro _
    rcases hrest with ⟨hspn, ho, _⟩ | ⟨sid, hsps, ho, _⟩
    · cases hb : s.isLiveConnected with
      | true =>
          obtain ⟨n, _, hn2⟩ := hinv.2.1 hb
          rw [hspn] at hn2
          cases hn2
      | false => rw [ho, hinv.2.2 hb]
    · cases hb : s.isLiveConnected with
      | true =>
          obtain ⟨n, hn1, hn2⟩ := hinv.2.1 hb
          rw [hsps] at hn2
          injection hn2 with hn2
          rw [ho, hn1, hn2]
          simp
      | false =>
          rw [ho, hinv.2.2 hb]
          simp

/-- The session bookkeeping of `startStep` on a disconnected state with the
credential present: it references and registers one fresh pending connect. -/
lemma startStep_sessions (s : ZudState) (hist : List Message) (tp : Topic)
    (lg : Lang) (ip : Option MessagePart) (hb : s.isLiveConnected = false) :
    (startStep s hist tp lg ip true).sessionPromise = some s.nextSessionId ∧
    (startStep s hist tp lg ip true).nextSessionId = s.nextSessionId + 1 ∧
    (startStep s hist tp lg ip true).pendingSessions
      = s.pendingSessions ++ [s.nextSessionId] ∧
    (startStep s hist tp lg ip true).openSessions = s.openSessions ∧
    (startStep s hist tp lg ip true).isLiveConnected = s.isLiveConnected := by
  unfold startStep addMessage
  rw [if_neg (by simp [hb]), if_neg (fun h => Bool.noConfusion h)]
  cases ip <;> exact ⟨rfl, rfl, rfl, rfl, rfl⟩

/-- Every serialized event preserves the single-session invariant. -/
lemma stepSerial_inv (s : ZudState) (e : SerialEvent) (hinv : SerialInv s) :
    SerialInv (stepSerial s e) := by
  cases e <;> dsimp only [stepSerial]
  case onMessage msg =>
    exact SerialInv_of_sessionView _ s (sessionView_onMessageStep s msg) hinv
  case stopCall env => exact SerialInv_stop s env hinv
  case errorEvt m env =>
    exact SerialInv_stop { s with error := some ("Session error: " ++ m), status := "Error" } env hinv
  case closeEvt env => exact SerialInv_stop s env hinv
  case sourceEnded sid =>
    exact SerialInv_of_sessionView _ s (sessionView_sourceEndedStep s sid) hinv
  case clearMessages => exact hinv
  case toggleMicMute => exact hinv
  case startOpen hist tp lg ip key mic env =>
    unfold startOpenStep
    try dsimp only
    cases hb : s.isLiveConnected with
    | true =>
        have hss : startStep s hist tp lg ip key = s := by
          unfold startStep
          rw [if_pos hb]
        rw [hss, if_neg (fun hcond => absurd hcond.2.symm (Nat.succ_ne_self _))]
        exact hinv
    | false =>
        cases key with
        | false =>
            have hss : startStep s hist tp lg ip false
                = { s with status := "Error"
                           error := some "Failed to start session: API_KEY environment variable not set."
                           messages := []
                           currentInputTranscription := ""
                           currentOutputTranscription := ""
                           isLiveConnected := false
                           now := s.now + 1 } := by
              unfold startStep
              rw [if_neg (by simp [hb]), if_pos rfl]
            rw [hss, if_neg (fun hcond => absurd hcond.2.symm (Nat.succ_ne_self _))]
            exact ⟨hinv.1, fun h => Bool.noConfusion h, fun _ => hinv.2.2 hb⟩
        | true =>
            have hfs := startStep_sessions s hist tp lg ip hb
            rw [if_pos (⟨hfs.1, hfs.2.1⟩ :
              (startStep s hist tp lg ip true).sessionPromise = some s.nextSessionId ∧
              (startStep s hist tp lg ip true).nextSessionId = s.nextSessionId + 1)]
            have hpend : s.nextSessionId ∈ (startStep s hist tp lg ip true).pendingSessions := by
              rw [hfs.2.2.1, hinv.1]
              simp
            unfold openStep
            rw [if_pos hpend]
            cases mic with
            | ok =>
                refine ⟨?_, ?_, ?_⟩
                · show ((startStep s hist tp lg ip true).pendingSessions).erase
                      s.nextSessionId = []
                  rw [hfs.2.2.1, hinv.1]
                  simp
                · intro _
                  refine ⟨s.nextSessionId, ?_, hfs.1⟩
                  show (startStep s hist tp lg ip true).openSessions
                      ++ [s.nextSessionId] = [s.nextSessionId]
                  rw [hfs.2.2.2.1, hinv.2.2 hb]
                  rfl
                · intro h
                  exact Bool.noConfusion h
            | fail m =>
                have hinner : SerialInv { startStep s hist tp lg ip true with
                    pendingSessions := ((startStep s hist tp lg ip true).pendingSessions).erase
                      s.nextSessionId
                    openSessions := (startStep s hist tp lg ip true).openSessions
                      ++ [s.nextSessionId]
                    isLiveConnected := true
                    status := "Error"
                    error := some ("Microphone error: " ++ m) } := by
                  refine ⟨?_, ?_, ?_⟩
                  · show ((startStep s hist tp lg ip true).pendingSessions).erase
                        s.nextSessionId = []
                    rw [hfs.2.2.1, hinv.1]
                    simp
                  · intro _
                    refine ⟨s.nextSessionId, ?_, hfs.1⟩
                    show (startStep s hist tp lg ip true).openSessions
                        ++ [s.nextSessionId] = [s.nextSessionId]
                    rw [hfs.2.2.2.1, hinv.2.2 hb]
                    rfl
                  · intro h
                    exact Bool.noConfusion h
                exact SerialInv_of_sessionView _ _ rfl (SerialInv_stop _ env hinner)

/-- Serialized runs keep the single-session invariant. -/
lemma runSerial_inv (tr : List SerialEvent) (s : ZudState) (hinv : SerialInv s) :
    SerialInv (runSerial s tr) := by
  induction tr generalizing s with
  | nil => exact hinv
  | cons e rest ih => exact ih (stepSerial s e) (stepSerial_inv s e hinv)

/-- Two `start()` calls issued back to back before either connect resolves:
the guard reads `isLiveConnected`, which only becomes true in `onopen`. -/
def doubleStartTrace : List Event :=
  [Event.startCall [] .general .enUS none true,
   Event.startCall [] .general .enUS none true,
   Event.openResolved 0 .ok ⟨false, false, false⟩,
   Event.openResolved 1 .ok ⟨false, false, false⟩]

/-- Counterexample for C1 as stated: after the sequence of calls
`start(); start()` (the second before the first connect's `onopen` fires)
both connects open, so two live sessions are connected at the same
instant — the `isLiveConnected` guard does not serialize session
lifetimes across the connect window. -/
theorem c1_counterexample :
    (runFull initialState doubleStartTrace).openSessions = [0, 1] ∧
    ¬ (runFull initialState doubleStartTrace).openSessions.length ≤ 1 := by
  constructor
  · rfl
  · decide

/-- C1 amended: in every serialized execution — each `start`'s connection
opens before any further call — at most one session is open at any
instant, and calling `start` while the connected flag is set returns
immediately with the whole state (status, error, flags, message list)
unchanged. -/
theorem c1_serialized_single_session (tr : List SerialEvent) :
    (runSerial initialState tr).openSessions.length ≤ 1 ∧
    (∀ (h : List Message) (t : Topic) (l : Lang) (ip : Option MessagePart)
      (key : Bool), (runSerial initialState tr).isLiveConnected = true →
      startStep (runSerial initialState tr) h t l ip key
        = runSerial initialState tr) := by
  have hinv := runSerial_inv tr initialState
    ⟨rfl, fun hc => Bool.noConfusion hc, fun _ => rfl⟩
  constructor
  · cases hb : (runSerial initialState tr).isLiveConnected with
    | true =>
        obtain ⟨n, hn, _⟩ := hinv.2.1 hb
        rw [hn]
        exact le_refl 1
    | false =>
        rw [hinv.2.2 hb]
        exact Nat.zero_le 1
  · intro h t l ip key hc
    unfold startStep
    rw [if_pos hc]

/-- Witness for C1 amended: one serialized start, then a redundant start. -/
theorem c1_witness :
    (runSerial initialState
      [SerialEvent.startOpen [] .general .enUS none true .ok ⟨false, false, false⟩]).openSessions.length ≤ 1 ∧
    startStep (runSerial initialState
        [SerialEvent.startOpen [] .general .enUS none true .ok ⟨false, false, false⟩])
        [] .general .enUS none true
      = runSerial initialState
        [SerialEvent.startOpen [] .general .enUS none true .ok ⟨false, false, false⟩] :=
  ⟨(c1_serialized_single_session
      [SerialEvent.startOpen [] .general .enUS none true .ok ⟨false, false, false⟩]).1,
   (c1_serialized_single_session
      [SerialEvent.startOpen [] .general .enUS none true .ok ⟨false, false, false⟩]).2
      [] .general .enUS none true (by decide)⟩

/-- `start([], 'general', 'en-US')`, connect opens, then microphone
acquisition fails (permission denied). -/
def micFailTrace : List Event :=
  [Event.startCall [] .general .enUS none true,
   Event.openResolved 0 (.fail "Permission denied") ⟨false, false, false⟩]

/-- Counterexample for C3 as stated: in the open-succeeds, capture-fails
scenario the final `error` is `null`, not a non-null string — the `onopen`
catch sets `Microphone error: ...` and `status = 'Error'` but then calls
`stop()`, which resets `status` to `'Ready'` and clears `error`
(lines 163-164). -/
theorem c3_counterexample :
    (runFull initialState micFailTrace).error = none := by
  rfl

/-- C3 amended: in that scenario the final state is idle — disconnected,
`status = 'Ready'`, `error` cleared back to `null` by the teardown (the
microphone error message is assigned only transiently before `stop()`
runs) — and the microphone stream, capture node, both audio contexts and
the session are all released. -/
theorem c3_mic_failure_full_teardown :
    (runFull initialState micFailTrace).isLiveConnected = false ∧
    (runFull initialState micFailTrace).status = "Ready" ∧
    (runFull initialState micFailTrace).error = none ∧
    (runFull initialState micFailTrace).microphoneStream = false ∧
    (runFull initialState micFailTrace).scriptProcessor = false ∧
    (runFull initialState micFailTrace).inputAudioContext = false ∧
    (runFull initialState micFailTrace).outputAudioContext = false ∧
    (runFull initialState micFailTrace).sessionPromise = none ∧
    (runFull initialState micFailTrace).openSessions = [] ∧
    (runFull initialState micFailTrace).pendingSessions = [] := by
  refine ⟨rfl, rfl, rfl, rfl, rfl, rfl, rfl, rfl, rfl, rfl⟩
